import Mathlib

/-!
Verification development for the component catalog renderer
(`src/components/source.js` of the fractal repository).

The JavaScript class `ComponentSource` is shallowly embedded: JSON-like
runtime values become the inductive `Value`, JavaScript objects become
ordered association lists, asynchronous computations become `Except`
values (a rejection is an `Except.error`), the diagnostics sink
(`console.error`) becomes an explicit list of logged messages threaded
through each operation, and the external collaborators (templating
engine, context resolver, tree loader, filesystem reader, tree `find`)
become function-valued fields of the `ComponentSource` structure, as the
spec treats them as interfaces only.  Concurrency in the collated render
is modelled by an explicit completion schedule parameter (the order in
which the fanned-out per-variant tasks finish); the joined output is
shown to be schedule independent.
-/

set_option autoImplicit false

namespace Fractal

/-- Failures travelling along the asynchronous chain are carried as plain
messages, matching the stringly-typed `Error` values of the source. -/
abbrev Err := String

/-- JSON-like runtime value.  JavaScript `undefined` is `Value.undef`;
objects are ordered association lists of fields. -/
inductive Value : Type where
  | undef : Value
  | nullV : Value
  | boolV : Bool → Value
  | num : Int → Value
  | str : String → Value
  | obj : List (String × Value) → Value

/-- Ordered field list of a JavaScript object. -/
abbrev Obj := List (String × Value)

/-- Truthiness, exactly as JavaScript coerces a value in a condition. -/
def Value.truthy : Value → Bool
  | .undef => false
  | .nullV => false
  | .boolV b => b
  | .num n => n != 0
  | .str s => s != ""
  | .obj _ => true

/-- Tests for the `undefined` value. -/
def Value.isUndef : Value → Bool
  | .undef => true
  | _ => false

/-- Short-circuit `a || b` of the source, on values. -/
def Value.or (a b : Value) : Value :=
  if a.truthy then a else b

/-- Field list of a value; primitives have no enumerable fields. -/
def Value.objFields : Value → Obj
  | .obj o => o
  | _ => []

/-- First binding of a key in an object, if any. -/
def lookupKey : Obj → String → Option Value
  | [], _ => none
  | (k, v) :: t, key => if k = key then some v else lookupKey t key

/-- Property read `o[key]`, yielding `undefined` when the key is absent. -/
def getKey (o : Obj) (key : String) : Value :=
  (lookupKey o key).getD Value.undef

/-- Property read on an arbitrary value; reads on primitives give
`undefined`. -/
def Value.get (v : Value) (key : String) : Value :=
  getKey v.objFields key

/-- Property write `o[key] = v`: updates the existing binding in place or
appends a fresh one, as JavaScript assignment does. -/
def setKey : Obj → String → Value → Obj
  | [], key, v => [(key, v)]
  | (k, w) :: t, key, v =>
    if k = key then (k, v) :: t else (k, w) :: setKey t key v

/-- The lodash `_.defaults(dest, src)` merge: every destination property
that reads as `undefined` is filled from the source object; defined
destination properties win. -/
def defaults (dest src : Obj) : Obj :=
  src.foldl (fun d kv => if (getKey d kv.1).isUndef then setKey d kv.1 kv.2 else d) dest

/-- Status descriptor drawn from the status taxonomy.  The `statuses`
field is the ordered list attached to the aggregate (mixed) record; plain
option records carry an empty list. -/
inductive StatusRecord : Type where
  | mk : String → String → List StatusRecord → StatusRecord

/-- Handle of a status record. -/
def StatusRecord.handle : StatusRecord → String
  | .mk h _ _ => h

/-- Label of a status record. -/
def StatusRecord.label : StatusRecord → String
  | .mk _ l _ => l

/-- Attached list of underlying records of a status record. -/
def StatusRecord.statuses : StatusRecord → List StatusRecord
  | .mk _ _ s => s

/-- Clone of a record with its `statuses` field replaced, modelling
`details = _.clone(mixed); details.statuses = statuses`. -/
def StatusRecord.withStatuses : StatusRecord → List StatusRecord → StatusRecord
  | .mk h l _, s => .mk h l s

/-- Status taxonomy configured on the catalog (`props.status`): the
default handle, the designated mixed record, and the options map. -/
structure StatusTaxonomy : Type where
  default : String
  mixed : StatusRecord
  options : List (String × StatusRecord)

/-- Variant entity.  `getContent` is the lazily loaded template source
(its possible failure made explicit), `toJSON` the serialized form the
pipeline injects into contexts. -/
structure Variant : Type where
  handle : String
  viewPath : String
  getContent : Except Err String
  context : Value
  preview : Option String
  isDefault : Bool
  toJSON : Value

/-- Component entity owning an ordered list of variants. -/
structure Component : Type where
  handle : String
  collated : Bool
  variants : List Variant
  preview : Option String
  toJSON : Value

/-- Modelled from the spec: the `variants().default()` call of the source
lives in the external variant collection, which is not part of this file
of the repository; per the spec, the default variant is the one
explicitly marked as default, or failing that the first declared one. -/
def Component.defaultVariant (c : Component) : Option Variant :=
  match c.variants.find? (fun v => v.isDefault) with
  | some v => some v
  | none => c.variants.head?

/-- Entity union dispatched on by `render`; `other` covers any entity
whose `type` tag is neither `component` nor `variant`. -/
inductive Entity : Type where
  | component : Component → Entity
  | variant : Variant → Entity
  | other : String → Value → Entity

/-- Render options; only `useLayout` is consulted by the pipeline. -/
structure Opts : Type where
  useLayout : Bool

/-- First argument of `render`: a falsy value, a raw template path
string, or a proper entity. -/
inductive RenderArg : Type where
  | missing : RenderArg
  | strPath : String → RenderArg
  | entity : Entity → RenderArg

/-- Outcome of the promise returned by `render`: a rejection (possibly
with the bare `null` of the missing-entity path) or a resolution carrying
either markup or `undefined`. -/
inductive RenderResult : Type where
  | rejected : Option Err → RenderResult
  | resolved : Option String → RenderResult

/-- Argument shape accepted by `statusInfo`. -/
inductive StatusArg : Type where
  | undef : StatusArg
  | single : String → StatusArg
  | list : List String → StatusArg

/-- File-like record classified by the path predicates. -/
structure FileObj : Type where
  path : String

/-- The component catalog.  Configuration fields mirror the constructor;
the external collaborators (engine, resolver, loader, filesystem, tree
lookup) are function-valued fields, as the spec specifies them at their
interface boundary only. -/
structure ComponentSource : Type where
  ext : String
  splitter : String
  _statuses : StatusTaxonomy
  yield : String
  collator : Option (Option String → Variant → String)
  engineRender : Option String → String → Value → Except Err String
  resolveCtx : Value → Except Err Obj
  load : Except Err Unit
  find : String → Option Entity
  readFile : String → Except Err String

/-- Truthiness of an optional preview handle, as the source tests
`entity.preview` directly: absent and empty handles are falsy. -/
def previewVal : Option String → String
  | some s => s
  | none => ""

/-- Boolean form of the preview-handle truthiness test. -/
def previewTruthy (p : Option String) : Bool :=
  previewVal p != ""

/-- The `renderString` method: hands the raw template source and the
given context straight to the templating engine, with a `null` view
path. -/
def ComponentSource.renderString (src : ComponentSource) (s : String) (context : Value) :
    Except Err String :=
  src.engineRender none s context

/-- The `_renderVariant` generator: fall back to the stored context of
the variant when the argument is falsy, load the template content,
resolve the context, inject `_self`, and invoke the engine. -/
def ComponentSource._renderVariant (src : ComponentSource) (variant : Variant)
    (context : Value) : Except Err String :=
  let context := if context.truthy then context else variant.context
  match variant.getContent with
  | .error e => .error e
  | .ok content =>
    match src.resolveCtx context with
    | .error e => .error e
    | .ok ctx =>
      src.engineRender (some variant.viewPath) content
        (Value.obj (setKey ctx "_self" variant.toJSON))

/-- Variant a looked-up layout entity renders through: a component
resolves to its default variant, a variant stands for itself.  A layout
entity of an unrenderable shape (an unsupported type, or a component
with no default variant) yields nothing, making the wrapping chain
reject as the property accesses of the source would throw there.  The
returned diagnostics list of the wrap below is the sequence of messages
sent to the diagnostics sink. -/
def layoutVariantOf : Entity → Option Variant
  | .component c => c.defaultVariant
  | .variant v => some v
  | .other _ _ => none

/-- The `_wrapInLayout` generator, continued: look the layout up, fall
back to the unwrapped content when it is missing, resolve the layout
context, load the layout content, merge, inject the inner markup under
the yield key, and invoke the engine. -/
def ComponentSource._wrapInLayout (src : ComponentSource) (content : String)
    (previewHandle : String) (context : Value) : Except Err String × List String :=
  match src.find previewHandle with
  | none => (.ok content, ["Preview layout " ++ previewHandle ++ " not found."])
  | some layout =>
    match layoutVariantOf layout with
    | none => (.error "TypeError: layout entity is not renderable", [])
    | some lv =>
      match src.resolveCtx lv.context with
      | .error e => (.error e, [])
      | .ok layoutContext =>
        match lv.getContent with
        | .error e => (.error e, [])
        | .ok layoutContent =>
          let merged := defaults layoutContext context.objFields
          let merged := setKey merged src.yield (Value.str content)
          (src.engineRender (some lv.viewPath) layoutContent (Value.obj merged), [])

/-- Body of the variant arm of the `co` pipeline in `render`, shared by
the direct variant path, the default-variant path of a non-collated
component, and the recursive per-variant renders of a collated
component: render the variant, then wrap in the layout when requested
and the variant declares a truthy preview handle. -/
def ComponentSource.coBodyVariant (src : ComponentSource) (v : Variant)
    (context : Value) (opts : Opts) : Except Err String × List String :=
  match src._renderVariant v context with
  | .error e => (.error e, [])
  | .ok rendered =>
    if opts.useLayout && previewTruthy v.preview then
      src._wrapInLayout rendered (previewVal v.preview)
        (Value.obj [("_target", v.toJSON)])
    else (.ok rendered, [])

/-- The full `render` pipeline on a variant entity: await the tree load,
run the variant arm, and convert any failure of the awaited chain into a
logged, silently `undefined` resolution — the top-level catch of
`render`. -/
def ComponentSource.renderVariantEntity (src : ComponentSource) (v : Variant)
    (context : Value) (opts : Opts) : Option String × List String :=
  match (match src.load with
         | .error e => ((.error e : Except Err String), ([] : List String))
         | .ok _ => src.coBodyVariant v context opts) with
  | (.ok s, logs) => (some s, logs)
  | (.error e, logs) => (none, logs ++ [e])

/-- One fanned-out task of the collated render: pick the per-variant
context override from the supplied context when truthy, resolve it, and
feed it to a recursive `render` call on the variant, post-processing the
markup through the configured collator.  The recursive `render` never
rejects, so the task only rejects when the context resolution does. -/
def ComponentSource.collatedTask (src : ComponentSource) (context : Value)
    (variant : Variant) : Except Err (Option String) × List String :=
  match src.resolveCtx (Value.or (context.get ("@" ++ variant.handle)) variant.context) with
  | .error e => (.error e, [])
  | .ok ctx =>
    let r := src.renderVariantEntity variant (Value.obj ctx) ⟨false⟩
    match src.collator with
    | some f => (.ok (some (f r.1 variant)), r.2)
    | none => (.ok r.1, r.2)

/-- String a per-variant result contributes to the joined document:
`Array.prototype.join` stringifies `undefined` elements to the empty
string. -/
def joinElem : Except Err (Option String) → String
  | .ok (some s) => s
  | .ok none => ""
  | .error _ => ""

/-- The `_renderCollatedComponent` generator.  All per-variant tasks are
issued at once; `sched` is the order in which they complete.  As with
`Promise.all`, the first rejection in completion order rejects the
whole, diagnostics are emitted in completion order, and a fully
successful fan-out joins the results in declared variant order with a
newline separator. -/
def ComponentSource._renderCollatedComponent (src : ComponentSource)
    (component : Component) (context : Value) (sched : List Nat) :
    Except Err String × List String :=
  let context := if context.truthy then context else Value.obj []
  let tasks := component.variants.map (fun variant => src.collatedTask context variant)
  let completed := sched.filterMap (fun i => tasks.get? i)
  let logs := completed.foldl (fun acc t => acc ++ t.2) []
  match completed.filterMap (fun t => match t.1 with | .error e => some e | _ => none) with
  | e :: _ => (.error e, logs)
  | [] => (.ok (String.intercalate "\n" (tasks.map (fun t => joinElem t.1))), logs)

/-- Body of the `co` block of `render` for a proper entity argument:
await the tree load, dispatch on the entity kind, and apply the layout
wrap when requested and the rendering target declares a truthy preview
handle — for a non-collated component that target is its default
variant, for a collated component the component itself.  A missing
default variant rejects the chain, as the source would throw a
`TypeError` there. -/
def ComponentSource.coBody (src : ComponentSource) (e : Entity) (context : Value)
    (opts : Opts) (sched : List Nat) : Except Err String × List String :=
  match src.load with
  | .error err => (.error err, [])
  | .ok _ =>
    match e with
    | .variant v => src.coBodyVariant v context opts
    | .component c =>
      if c.collated then
        match src._renderCollatedComponent c context sched with
        | (.error err, logs) => (.error err, logs)
        | (.ok rendered, logs) =>
          if opts.useLayout && previewTruthy c.preview then
            let (r2, logs2) := src._wrapInLayout rendered (previewVal c.preview)
              (Value.obj [("_target", c.toJSON)])
            (r2, logs ++ logs2)
          else (.ok rendered, logs)
      else
        match c.defaultVariant with
        | none => (.error "TypeError: cannot render an undefined default variant", [])
        | some v => src.coBodyVariant v context opts
    | .other ty _ => (.error ("Cannot render entity of type " ++ ty), [])

/-- The public `render` method.  A falsy entity rejects with `null`; a
string entity is read from the filesystem and rendered directly, its
failures rejecting; a proper entity runs the `co` pipeline whose
failures are caught once at this outer boundary, logged, and turned
into a resolution carrying no value. -/
def ComponentSource.render (src : ComponentSource) (arg : RenderArg) (context : Value)
    (opts : Opts) (sched : List Nat) : RenderResult × List String :=
  match arg with
  | .missing => (.rejected none, [])
  | .strPath p =>
    match src.readFile p with
    | .error e => (.rejected (some e), [])
    | .ok content =>
      match src.engineRender (some p) content context with
      | .error e => (.rejected (some e), [])
      | .ok markup => (.resolved (some markup), [])
  | .entity e =>
    match src.coBody e context opts sched with
    | (.ok s, logs) => (.resolved (some s), logs)
    | (.error err, logs) => (.resolved none, logs ++ [err])

/-- The lodash `_.uniq`: keeps the first occurrence of each element. -/
def uniqAux (seen : List String) : List String → List String
  | [] => []
  | h :: t => if seen.contains h then uniqAux seen t else h :: uniqAux (h :: seen) t

/-- Deduplication preserving first-occurrence order. -/
def uniq (l : List String) : List String := uniqAux [] l

/-- Lookup in the `options` map of the taxonomy. -/
def lookupStatusOption (options : List (String × StatusRecord)) (handle : String) :
    Option StatusRecord :=
  (options.find? (fun p => p.1 == handle)).map Prod.snd

/-- The single-handle arm of `statusInfo`: the designated mixed handle
returns the mixed record verbatim; a handle absent from the options map
logs a warning and falls back to the option stored under the default
handle. -/
def ComponentSource.statusInfoSingle (src : ComponentSource) (handle : String) :
    Option StatusRecord × List String :=
  if handle = src._statuses.mixed.handle then
    (some src._statuses.mixed, [])
  else
    match lookupStatusOption src._statuses.options handle with
    | none =>
      (lookupStatusOption src._statuses.options src._statuses.default,
       ["Status " ++ handle ++ " is not a known option."])
    | some r => (some r, [])

/-- List arm of `statusInfo`, applied to the deduplicated handles: a
single surviving handle recurses into the single-handle arm; several
distinct handles each resolve through the single-handle arm, their
non-empty resolutions are collected in order, and a clone of the mixed
record carries them as its `statuses` field.  The returned list is the
sequence of logged warnings. -/
def ComponentSource.statusInfoList (src : ComponentSource) :
    List String → Option StatusRecord × List String
  | [l] => src.statusInfoSingle l
  | handles =>
    let pairs := handles.map (fun l => src.statusInfoSingle l)
    let statuses := pairs.filterMap Prod.fst
    let logs := pairs.foldl (fun acc p => acc ++ p.2) []
    (some (src._statuses.mixed.withStatuses statuses), logs)

/-- The `statusInfo` method, continued: dispatch on the argument shape.
A present list is deduplicated and handed to the list arm above. -/
def ComponentSource.statusInfo (src : ComponentSource) :
    StatusArg → Option StatusRecord × List String
  | .undef => (none, [])
  | .list [] => (none, [])
  | .list hs => src.statusInfoList (uniq hs)
  | .single h => src.statusInfoSingle h

/-- Opening brace character, the one brace-expansion groups start
with. -/
def braceOpen : Char := Char.ofNat 123

/-- Closing brace character. -/
def braceClose : Char := Char.ofNat 125

/-- Splits a character list at a separator, as splitting a path into
segments does; the separator is consumed. -/
def splitChar (c : Char) : List Char → List (List Char)
  | [] => [[]]
  | d :: t =>
    let r := splitChar c t
    if d = c then [] :: r
    else
      match r with
      | [] => [[d]]
      | h :: t2 => (d :: h) :: t2

/-- Locates the first brace-expansion group of a pattern, returning the
leading text, the group body, and the trailing text. -/
def findBraceGroup : List Char → Option (List Char × List Char × List Char)
  | [] => none
  | d :: t =>
    if d = braceOpen then
      match splitChar braceClose t with
      | [] => none
      | [_] => none
      | body :: rest :: more =>
        some ([], body, String.intercalate (String.mk [braceClose])
          ((rest :: more).map String.mk) |>.data)
    else
      match findBraceGroup t with
      | none => none
      | some (pre, body, suf) => some (d :: pre, body, suf)

/-- One level of brace expansion, fuelled: the alternatives of the first
group are substituted and each result expanded further. -/
def expandFuel : Nat → List Char → List (List Char)
  | 0, s => [s]
  | fuel + 1, s =>
    match findBraceGroup s with
    | none => [s]
    | some (pre, body, suf) =>
      (splitChar ',' body).flatMap (fun alt => expandFuel fuel (pre ++ alt ++ suf))

/-- Brace expansion of a glob pattern, as micromatch performs before
matching. -/
def expandBraces (p : List Char) : List (List Char) :=
  expandFuel p.length p

/-- Wildcard matching within one path segment: a star matches any
character run, every other character matches literally. -/
def segMatch : List Char → List Char → Bool
  | [], [] => true
  | [], _ :: _ => false
  | p :: ps, s =>
    if p = '*' then
      segMatch ps s ||
        (match s with
         | [] => false
         | _ :: t => segMatch (p :: ps) t)
    else
      match s with
      | [] => false
      | d :: t => p = d && segMatch ps t
termination_by p s => (p.length, s.length)

/-- Segment-level glob matching: a double-star segment matches any
number of path segments, including none. -/
def matchSegs : List (List Char) → List (List Char) → Bool
  | [], [] => true
  | [], _ :: _ => false
  | p :: ps, segs =>
    if p = ['*', '*'] then
      matchSegs ps segs ||
        (match segs with
         | [] => false
         | _ :: t => matchSegs (p :: ps) t)
    else
      match segs with
      | [] => false
      | s :: t => segMatch p s && matchSegs ps t
termination_by p s => (p.length, s.length)

/-- Matching of one brace-expanded glob pattern against a path. -/
def globMatchL (pat path : List Char) : Bool :=
  (expandBraces pat).any (fun q => matchSegs (splitChar '/' q) (splitChar '/' path))

/-- Negation marker test on a pattern. -/
def isNegPat : List Char → Bool
  | [] => false
  | c :: _ => c = '!'

/-- Strips the negation marker of a pattern. -/
def stripNeg (p : List Char) : List Char :=
  if isNegPat p then p.tail else p

/-- The anymatch collaborator on a matcher list: some positive pattern
must match and no negated pattern may. -/
def anymatchL (pats : List (List Char)) (path : List Char) : Bool :=
  (pats.any fun p => !isNegPat p && globMatchL p path) &&
    !(pats.any fun p => isNegPat p && globMatchL (stripNeg p) path)

/-- String-level entry point of the glob matcher. -/
def anymatch (pats : List String) (path : String) : Bool :=
  anymatchL (pats.map String.data) path.data

/-- The `isView` predicate: a file of the configured extension that is
not a variant view. -/
def ComponentSource.isView (src : ComponentSource) (file : FileObj) : Bool :=
  anymatch ["**/*" ++ src.ext, "!**/*" ++ src.splitter ++ "*" ++ src.ext]
    file.path.toLower

/-- The `isVarView` predicate: a file of the configured extension whose
name carries the variant splitter. -/
def ComponentSource.isVarView (src : ComponentSource) (file : FileObj) : Bool :=
  anymatch ["**/*" ++ src.splitter ++ "*" ++ src.ext] file.path.toLower

/-- The `isConfig` predicate. -/
def ComponentSource.isConfig (src : ComponentSource) (file : FileObj) : Bool :=
  anymatch ["**/*.config.\x7bjs,json,yaml,yml\x7d"] file.path.toLower

/-- The `isReadme` predicate. -/
def ComponentSource.isReadme (src : ComponentSource) (file : FileObj) : Bool :=
  anymatch ["**/readme.md"] file.path.toLower

/-- The `isAsset` predicate: any dotted file that is neither a view of
the configured extension, nor a config file, nor a readme. -/
def ComponentSource.isAsset (src : ComponentSource) (file : FileObj) : Bool :=
  anymatch ["**/*.*", "!**/*" ++ src.ext, "!**/*.config.\x7bjs,json,yaml,yml\x7d",
    "!**/readme.md"] file.path.toLower

/-- Boolean success test on an asynchronous outcome. -/
def exceptOk {α : Type} : Except Err α → Bool
  | .ok _ => true
  | .error _ => false

/-- Effective per-variant context of the collated render, in the words
of the spec: the value stored in the supplied context under the
`@handle` key when that key is present, otherwise the stored context of
the variant. -/
def collatedEffSpec (context : Value) (v : Variant) : Value :=
  if (Value.get context ("@" ++ v.handle)).isUndef then v.context
  else Value.get context ("@" ++ v.handle)

/-- String a variant contributes to the collated document, in the words
of the spec: the markup of the recursive render of the variant under its
resolved effective context, replaced by the collator output when a
collator is configured. -/
def collatedElemStr (src : ComponentSource) (context : Value) (v : Variant) : String :=
  match src.resolveCtx (collatedEffSpec context v) with
  | .error _ => ""
  | .ok rctx =>
    let markup := (src.renderVariantEntity v (Value.obj rctx) ⟨false⟩).1
    match src.collator with
    | some f => f markup v
    | none => markup.getD ""

/-- Effective per-variant context of the collated render as the source
computes it: the value stored in the supplied context under the
`@handle` key when that value is truthy, otherwise the stored context of
the variant — a present but falsy override is ignored. -/
def collatedEff (context : Value) (v : Variant) : Value :=
  Value.or (Value.get context ("@" ++ v.handle)) v.context

/-- String a variant contributes to the collated document under the
truthiness rule of the source: the markup of the recursive render of the
variant under its resolved effective context, replaced by the collator
output when a collator is configured. -/
def collatedElemStrEff (src : ComponentSource) (context : Value) (v : Variant) : String :=
  match src.resolveCtx (collatedEff context v) with
  | .error _ => ""
  | .ok rctx =>
    let markup := (src.renderVariantEntity v (Value.obj rctx) ⟨false⟩).1
    match src.collator with
    | some f => f markup v
    | none => markup.getD ""

/-- Modelled from the spec, for comparison with `renderString`: the spec
describes `renderString` as running the context through Context
Resolution and then delegating to the templating engine. -/
def specRenderString (src : ComponentSource) (s : String) (context : Value) :
    Except Err String :=
  match src.resolveCtx context with
  | .error e => .error e
  | .ok r => src.engineRender none s (Value.obj r)

/-- Concrete status taxonomy used by the closed instances below. -/
def statusesW : StatusTaxonomy :=
  ⟨"ready", .mk "mixed" "Mixed" [],
    [("ready", .mk "ready" "Ready" []), ("wip", .mk "wip" "WIP" [])]⟩

/-- Concrete variant used by the closed instances below. -/
def variantA : Variant :=
  { handle := "a", viewPath := "va", getContent := .ok "A",
    context := Value.obj [("k", Value.str "ka")], preview := none,
    isDefault := false, toJSON := Value.str "jsonA" }

/-- Concrete default variant used by the closed instances below. -/
def variantB : Variant :=
  { handle := "b", viewPath := "vb", getContent := .ok "B",
    context := Value.obj [("k", Value.str "kb")], preview := none,
    isDefault := true, toJSON := Value.str "jsonB" }

/-- Concrete non-collated component with `variantB` marked default. -/
def cardW : Component :=
  { handle := "card", collated := false, variants := [variantA, variantB],
    preview := none, toJSON := Value.str "jsonCard" }

/-- Concrete collated component. -/
def cardCollW : Component :=
  { handle := "cardColl", collated := true, variants := [variantA, variantB],
    preview := none, toJSON := Value.str "jsonCardColl" }

/-- Concrete layout variant used by the layout-wrapping instances. -/
def layoutVariantW : Variant :=
  { handle := "layout", viewPath := "lv", getContent := .ok "LAY",
    context := Value.obj [("shared", Value.str "fromLayout"), ("only", Value.str "L")],
    preview := none, isDefault := true, toJSON := Value.str "jsonLayout" }

/-- Concrete catalog whose engine reports its view path, template source
and the `k` and `_self` bindings of the context it receives. -/
def srcW : ComponentSource where
  ext := ".hbs"
  splitter := "~"
  _statuses := statusesW
  yield := "yield"
  collator := none
  engineRender := fun vp c ctx =>
    .ok ((vp.getD "-") ++ ":" ++ c ++ ":" ++
      (match Value.get ctx "k" with | .str s => s | _ => "?") ++
      (if (Value.get ctx "_self").isUndef then ":noself" else ":self"))
  resolveCtx := fun v => .ok v.objFields
  load := .ok ()
  find := fun h => if h = "@layout" then some (.variant layoutVariantW) else none
  readFile := fun _ => .error "ENOENT"

/-- Variant declaring the concrete layout above as its preview. -/
def variantPrevW : Variant :=
  { variantA with preview := some "@layout" }

/-- Catalog whose engine only reports whether the context it receives
carries a `_self` binding. -/
def srcDetect : ComponentSource :=
  { srcW with
    engineRender := fun _ _ ctx =>
      .ok (if (Value.get ctx "_self").isUndef then "absent" else "present") }

/-- Catalog whose resolver marks the context and whose engine reports
whether the mark is present, so that its output tells whether the
context it received went through Context Resolution. -/
def srcResolveDetect : ComponentSource :=
  { srcW with
    resolveCtx := fun _ => .ok [("resolved", Value.str "yes")],
    engineRender := fun _ _ ctx =>
      .ok (if (Value.get ctx "resolved").isUndef then "raw" else "cooked") }

/-- C1: for every proper (non-string) entity argument, the promise
returned by `render` never rejects, and whenever the awaited pipeline
body fails — unsupported entity type, content loading, context
resolution or engine invocation — `render` appends the failure to the
diagnostics log and resolves with no value, so the caller sees the same
`undefined` an empty result would give. -/
theorem render_entity_swallows_failures_C1 (src : ComponentSource) (e : Entity)
    (context : Value) (opts : Opts) (sched : List Nat) :
    (∃ v logs, src.render (.entity e) context opts sched = (.resolved v, logs)) ∧
    (∀ err logs, src.coBody e context opts sched = (.error err, logs) →
      src.render (.entity e) context opts sched = (.resolved none, logs ++ [err])) := by
  constructor
  · match h : src.coBody e context opts sched with
    | (.ok s, logs) => exact ⟨some s, logs, by simp [ComponentSource.render, h]⟩
    | (.error err, logs) => exact ⟨none, logs ++ [err], by simp [ComponentSource.render, h]⟩
  · intro err logs h
    simp [ComponentSource.render, h]

/-- Witness for C1: a concrete entity of unsupported type makes the
pipeline fail; the failure is logged and the call resolves with no
value. -/
theorem render_entity_swallows_failures_C1_witness :
    srcW.render (.entity (.other "page" Value.undef)) Value.undef ⟨false⟩ [] =
      (.resolved none, [] ++ ["Cannot render entity of type page"]) :=
  (render_entity_swallows_failures_C1 srcW (.other "page" Value.undef)
    Value.undef ⟨false⟩ []).2 "Cannot render entity of type page" [] rfl

/-- C3: rendering a non-collated component with a well-defined default
variant is the same call, in outcome and diagnostics, as rendering that
default variant with the same context and options. -/
theorem render_default_variant_C3 (src : ComponentSource) (c : Component) (v : Variant)
    (context : Value) (opts : Opts) (sched : List Nat)
    (hcol : c.collated = false) (hdef : c.defaultVariant = some v) :
    src.render (.entity (.component c)) context opts sched =
      src.render (.entity (.variant v)) context opts sched := by
  cases hl : src.load with
  | error e => simp [ComponentSource.render, ComponentSource.coBody, hl]
  | ok u => simp [ComponentSource.render, ComponentSource.coBody, hl, hcol, hdef]

/-- Witness for C3: the concrete component `cardW` is not collated and
has `variantB` as its default variant. -/
theorem render_default_variant_C3_witness :
    srcW.render (.entity (.component cardW)) Value.undef ⟨false⟩ [] =
      srcW.render (.entity (.variant variantB)) Value.undef ⟨false⟩ [] :=
  render_default_variant_C3 srcW cardW variantB Value.undef ⟨false⟩ [] rfl rfl

/-- C5 (amended): `renderString` delegates the raw template source and
the given context directly to the templating engine, with a null view
path and no entity or layout machinery — but it does not run the context
through Context Resolution first. -/
theorem renderString_delegates_C5 (src : ComponentSource) (s : String) (context : Value) :
    src.renderString s context = src.engineRender none s context := rfl

/-- Counterexample for C5 as stated: with a resolver that marks the
context and an engine that reports whether the mark is present, the
output of `renderString` shows the engine received the raw, unresolved
context, differing from the spec-modelled resolve-then-render
pipeline. -/
theorem renderString_C5_counterexample :
    srcResolveDetect.renderString "tpl" (Value.obj []) ≠
      specRenderString srcResolveDetect "tpl" (Value.obj []) := by
  intro h
  rw [show srcResolveDetect.renderString "tpl" (Value.obj []) = Except.ok "raw" from rfl,
      show specRenderString srcResolveDetect "tpl" (Value.obj []) = Except.ok "cooked" from rfl] at h
  simp at h

/-- C7: when the preview handle resolves to no layout entity, the wrap
logs one diagnostic and returns the content exactly unchanged without
failing, and re-applying the wrap to the returned content behaves the
same way. -/
theorem wrap_missing_layout_C7 (src : ComponentSource) (content : String)
    (h : String) (context : Value) (hfind : src.find h = none) :
    src._wrapInLayout content h context =
      (.ok content, ["Preview layout " ++ h ++ " not found."]) ∧
    ∀ c2, (src._wrapInLayout content h context).1 = .ok c2 →
      src._wrapInLayout c2 h context =
        (.ok c2, ["Preview layout " ++ h ++ " not found."]) := by
  have base : ∀ c : String, src._wrapInLayout c h context =
      (.ok c, ["Preview layout " ++ h ++ " not found."]) := by
    intro c
    unfold ComponentSource._wrapInLayout
    rw [hfind]
  refine ⟨base content, ?_⟩
  intro c2 hc2
  rw [base content] at hc2
  simp only [Except.ok.injEq] at hc2
  rw [hc2] at *
  exact base c2

/-- Witness for C7 at a handle the concrete catalog does not know. -/
theorem wrap_missing_layout_C7_witness :
    srcW._wrapInLayout "body" "@nope" Value.undef =
      (.ok "body", ["Preview layout @nope not found."]) :=
  (wrap_missing_layout_C7 srcW "body" "@nope" Value.undef rfl).1

/-- Deduplication is idempotent, whatever the already-seen set. -/
theorem uniqAux_idem (l : List String) : ∀ seen, uniqAux seen (uniqAux seen l) = uniqAux seen l := by
  induction l with
  | nil => intro seen; rfl
  | cons h t ih =>
    intro seen
    by_cases hc : h ∈ seen
    · simp [uniqAux, hc, ih]
    · simp [uniqAux, hc, ih (h :: seen)]

/-- Deduplication is idempotent. -/
theorem uniq_idem (l : List String) : uniq (uniq l) = uniq l :=
  uniqAux_idem l []

/-- Deduplicating a non-empty list yields a non-empty list. -/
theorem uniq_cons_ne_nil (a : String) (t : List String) : uniq (a :: t) ≠ [] := by
  simp [uniq, uniqAux]

/-- C8: `statusInfo` on `undefined` or an empty list yields no record;
a handle list is deduplicated first, a single surviving handle gives
exactly the single-handle answer, and two or more distinct handles give
the mixed record carrying, as its `statuses` field, the non-empty
single-handle resolutions of the distinct handles in first-occurrence
order. -/
theorem statusInfo_lists_C8 (src : ComponentSource) (hs : List String) (l : String) :
    src.statusInfo .undef = (none, []) ∧
    src.statusInfo (.list []) = (none, []) ∧
    src.statusInfo (.list hs) = src.statusInfo (.list (uniq hs)) ∧
    (uniq hs = [l] → src.statusInfo (.list hs) = src.statusInfo (.single l)) ∧
    (2 ≤ (uniq hs).length →
      (src.statusInfo (.list hs)).1 =
        some (src._statuses.mixed.withStatuses
          ((uniq hs).filterMap (fun h => (src.statusInfo (.single h)).1)))) := by
  refine ⟨rfl, rfl, ?_, ?_, ?_⟩
  · cases hs with
    | nil => rfl
    | cons a t =>
      rcases hcons : uniq (a :: t) with _ | ⟨b, t2⟩
      · exact absurd hcons (uniq_cons_ne_nil a t)
      · show src.statusInfoList (uniq (a :: t)) = src.statusInfo (.list (b :: t2))
        have h2 : uniq (b :: t2) = b :: t2 := by
          rw [← hcons]; exact uniq_idem (a :: t)
        show src.statusInfoList (uniq (a :: t)) = src.statusInfoList (uniq (b :: t2))
        rw [hcons, h2]
  · intro hl
    cases hs with
    | nil => simp [uniq, uniqAux] at hl
    | cons a t =>
      show src.statusInfoList (uniq (a :: t)) = src.statusInfoSingle l
      rw [hl]
      rfl
  · intro hlen
    cases hs with
    | nil => simp [uniq, uniqAux] at hlen
    | cons a t =>
      rcases hcons : uniq (a :: t) with _ | ⟨b, t2⟩
      · exact absurd hcons (uniq_cons_ne_nil a t)
      · cases t2 with
        | nil => rw [hcons] at hlen; simp at hlen
        | cons c t3 =>
          show (src.statusInfoList (uniq (a :: t))).1 = _
          rw [hcons]
          show some (src._statuses.mixed.withStatuses
            (((b :: c :: t3).map (fun x => src.statusInfoSingle x)).filterMap Prod.fst)) = _
          rw [List.filterMap_map]
          rfl

/-- Witness for C8: two equal handles collapse to the single-handle
answer, and two distinct handles produce the aggregated mixed record. -/
theorem statusInfo_lists_C8_witness :
    srcW.statusInfo (.list ["ready", "ready"]) = srcW.statusInfo (.single "ready") ∧
    (srcW.statusInfo (.list ["ready", "wip"])).1 =
      some (srcW._statuses.mixed.withStatuses
        ((uniq ["ready", "wip"]).filterMap (fun h => (srcW.statusInfo (.single h)).1))) :=
  ⟨(statusInfo_lists_C8 srcW ["ready", "ready"] "ready").2.2.2.1 rfl,
   (statusInfo_lists_C8 srcW ["ready", "wip"] "x").2.2.2.2 (by decide)⟩

/-- C9: a single handle that is neither in the options map nor the
designated mixed handle logs a warning and falls back to the option
stored under the configured default handle — the same record the
single-handle call on the default handle returns — and the call cannot
fail, the embedding being total by construction.  The hypotheses pin the
sane taxonomy the claim presupposes: the default handle denotes an
option record and is not the mixed handle. -/
theorem statusInfo_unknown_C9 (src : ComponentSource) (h : String) (d : StatusRecord)
    (hd : lookupStatusOption src._statuses.options src._statuses.default = some d)
    (hdm : src._statuses.default ≠ src._statuses.mixed.handle)
    (hu : lookupStatusOption src._statuses.options h = none)
    (hm : h ≠ src._statuses.mixed.handle) :
    src.statusInfo (.single h) =
      (some d, ["Status " ++ h ++ " is not a known option."]) ∧
    (src.statusInfo (.single src._statuses.default)).1 = some d := by
  constructor
  · show src.statusInfoSingle h = _
    simp [ComponentSource.statusInfoSingle, hm, hu, hd]
  · show (src.statusInfoSingle src._statuses.default).1 = _
    simp [ComponentSource.statusInfoSingle, hdm, hd]

/-- Witness for C9 at a handle unknown to the concrete taxonomy. -/
theorem statusInfo_unknown_C9_witness :
    srcW.statusInfo (.single "bogus") =
      (some (.mk "ready" "Ready" []), ["Status bogus is not a known option."]) ∧
    (srcW.statusInfo (.single srcW._statuses.default)).1 = some (.mk "ready" "Ready" []) :=
  statusInfo_unknown_C9 srcW "bogus" (.mk "ready" "Ready" []) rfl
    (by decide) rfl (by decide)

/-- A value is `undefined` exactly when its undefinedness test says
so. -/
theorem Value.isUndef_iff (v : Value) : v.isUndef = true ↔ v = .undef := by
  cases v <;> simp [Value.isUndef]

/-- Reading a key just written returns the written value. -/
theorem getKey_setKey_self (o : Obj) (k : String) (v : Value) :
    getKey (setKey o k v) k = v := by
  induction o with
  | nil => simp [setKey, getKey, lookupKey]
  | cons p t ih =>
    obtain ⟨k1, v1⟩ := p
    by_cases hp : k1 = k
    · simp [setKey, hp, getKey, lookupKey]
    · simp only [setKey, hp, ite_false, if_false]
      simpa [getKey, lookupKey, hp] using ih

/-- Writing one key leaves every other key unchanged. -/
theorem getKey_setKey_ne (o : Obj) (k k2 : String) (v : Value) (h : k2 ≠ k) :
    getKey (setKey o k v) k2 = getKey o k2 := by
  have hne : ¬ (k = k2) := fun h2 => h h2.symm
  induction o with
  | nil => simp [setKey, getKey, lookupKey, hne]
  | cons p t ih =>
    obtain ⟨k1, v1⟩ := p
    by_cases hp : k1 = k
    · subst hp
      simp [setKey, getKey, lookupKey, hne]
    · by_cases hp2 : k1 = k2
      · simp [setKey, hp, getKey, lookupKey, hp2, h]
      · simp only [setKey, hp, ite_false, if_false]
        simpa [getKey, lookupKey, hp2] using ih

/-- A key outside the field list reads as `undefined`. -/
theorem getKey_not_mem (o : Obj) (k : String) (h : k ∉ o.map Prod.fst) :
    getKey o k = .undef := by
  induction o with
  | nil => rfl
  | cons p t ih =>
    obtain ⟨k1, v1⟩ := p
    simp only [List.map_cons, List.mem_cons, not_or] at h
    have h1 : ¬ (k1 = k) := fun h2 => h.1 h2.symm
    simpa [getKey, lookupKey, h1] using ih h.2

/-- A defaults-merge never changes a key the destination defines. -/
theorem defaults_defined (s : Obj) : ∀ (d : Obj) (k : String),
    (getKey d k).isUndef = false → getKey (defaults d s) k = getKey d k := by
  induction s with
  | nil => intro d k _; rfl
  | cons p t ih =>
    obtain ⟨k1, v1⟩ := p
    intro d k hk
    show getKey (defaults (if (getKey d k1).isUndef then setKey d k1 v1 else d) t) k = _
    by_cases hp : (getKey d k1).isUndef
    · rw [if_pos hp]
      by_cases hpk : k1 = k
      · subst hpk; rw [hp] at hk; cases hk
      · rw [ih (setKey d k1 v1) k
          (by rw [getKey_setKey_ne d k1 k v1 (fun h2 => hpk h2.symm)]; exact hk)]
        exact getKey_setKey_ne d k1 k v1 (fun h2 => hpk h2.symm)
    · rw [if_neg hp]
      exact ih d k hk

/-- A defaults-merge fills a key the destination leaves undefined with
the source reading of that key, provided the source keys are distinct,
as the keys of a JavaScript object are. -/
theorem defaults_undef (s : Obj) : ∀ (d : Obj) (k : String),
    (s.map Prod.fst).Nodup → (getKey d k).isUndef = true →
    getKey (defaults d s) k = getKey s k := by
  induction s with
  | nil =>
    intro d k _ hk
    show getKey d k = getKey [] k
    rw [(Value.isUndef_iff _).mp hk]; rfl
  | cons p t ih =>
    obtain ⟨k1, v1⟩ := p
    intro d k hnd hk
    rw [List.map_cons] at hnd
    have hk1 : k1 ∉ t.map Prod.fst := (List.nodup_cons.mp hnd).1
    have hnd2 : (t.map Prod.fst).Nodup := (List.nodup_cons.mp hnd).2
    show getKey (defaults (if (getKey d k1).isUndef then setKey d k1 v1 else d) t) k =
      getKey ((k1, v1) :: t) k
    by_cases hpk : k1 = k
    · subst hpk
      rw [if_pos hk]
      by_cases hv : v1.isUndef
      · rw [ih (setKey d k1 v1) k1 hnd2 (by rw [getKey_setKey_self]; exact hv)]
        rw [getKey_not_mem t k1 hk1]
        simp [getKey, lookupKey, (Value.isUndef_iff v1).mp hv]
      · rw [defaults_defined t (setKey d k1 v1) k1
          (by rw [getKey_setKey_self]; simpa using hv)]
        rw [getKey_setKey_self]
        simp [getKey, lookupKey]
    · have hstep : (getKey (if (getKey d k1).isUndef then setKey d k1 v1 else d) k).isUndef
          = true := by
        by_cases hp : (getKey d k1).isUndef
        · rw [if_pos hp, getKey_setKey_ne d k1 k v1 (fun h2 => hpk h2.symm)]
          exact hk
        · rw [if_neg hp]; exact hk
      rw [ih _ k hnd2 hstep]
      simp [getKey, lookupKey, hpk]

/-- C4 (amended): in variant rendering, the context handed to the
templating engine is the resolved effective context extended with a
`_self` binding equal to the serialized variant, every other binding of
the resolved context kept unchanged.  The other engine invocations of
the pipeline — layout wrapping and `renderString` — do not inject
`_self`, which is what refutes the claim as stated. -/
theorem renderVariant_self_C4 (src : ComponentSource) (v : Variant) (context : Value)
    (content : String) (rctx : Obj)
    (hcont : v.getContent = .ok content)
    (hres : src.resolveCtx (if context.truthy then context else v.context) = .ok rctx) :
    ∃ engineCtx : Obj,
      src._renderVariant v context =
        src.engineRender (some v.viewPath) content (Value.obj engineCtx) ∧
      getKey engineCtx "_self" = v.toJSON ∧
      ∀ k, k ≠ "_self" → getKey engineCtx k = getKey rctx k := by
  refine ⟨setKey rctx "_self" v.toJSON, ?_, getKey_setKey_self rctx "_self" v.toJSON, ?_⟩
  · simp [ComponentSource._renderVariant, hcont, hres]
  · intro k hk
    exact getKey_setKey_ne rctx "_self" k v.toJSON hk

/-- Witness for C4 at a concrete variant of the concrete catalog. -/
theorem renderVariant_self_C4_witness :
    ∃ engineCtx : Obj,
      srcW._renderVariant variantA Value.undef =
        srcW.engineRender (some variantA.viewPath) "A" (Value.obj engineCtx) ∧
      getKey engineCtx "_self" = variantA.toJSON ∧
      ∀ k, k ≠ "_self" → getKey engineCtx k = getKey [("k", Value.str "ka")] k :=
  renderVariant_self_C4 srcW variantA Value.undef "A" [("k", Value.str "ka")] rfl rfl

/-- Counterexample for C4 as stated: rendering, with layout wrapping
requested, a variant whose preview names a concrete layout, through an
engine that only reports whether the context it receives carries a
`_self` binding.  The final markup is the answer of the layout engine
invocation, and it reports the binding absent, although the same engine
reports it present on any context carrying `_self` — so not every
engine invocation of the pipeline carries one. -/
theorem engine_ctx_self_C4_counterexample :
    srcDetect.render (.entity (.variant variantPrevW)) Value.undef ⟨true⟩ [] =
      (.resolved (some "absent"), []) ∧
    srcDetect.engineRender (some "lv") "LAY"
      (Value.obj [("_self", Value.str "x")]) = .ok "present" :=
  ⟨rfl, rfl⟩

/-- C6: the context handed to the layout engine invocation keeps every
defined binding of the resolved layout context unchanged, reads a key
from the caller-supplied context exactly when the layout context leaves
it undefined, and carries the inner markup under the configured yield
key.  The hypothesis on the caller-supplied context keys mirrors the
distinctness of JavaScript object keys. -/
theorem wrap_merge_C6 (src : ComponentSource) (content handle : String) (target : Value)
    (ent : Entity) (lv : Variant) (lctx : Obj) (lcontent : String)
    (hfind : src.find handle = some ent)
    (hlv : layoutVariantOf ent = some lv)
    (hres : src.resolveCtx lv.context = .ok lctx)
    (hcont : lv.getContent = .ok lcontent)
    (hnd : (target.objFields.map Prod.fst).Nodup) :
    ∃ finalCtx : Obj,
      src._wrapInLayout content handle target =
        (src.engineRender (some lv.viewPath) lcontent (Value.obj finalCtx), []) ∧
      getKey finalCtx src.yield = Value.str content ∧
      ∀ k, k ≠ src.yield →
        getKey finalCtx k =
          (if (getKey lctx k).isUndef then Value.get target k else getKey lctx k) := by
  refine ⟨setKey (defaults lctx target.objFields) src.yield (Value.str content), ?_, ?_, ?_⟩
  · simp [ComponentSource._wrapInLayout, hfind, hlv, hres, hcont]
  · exact getKey_setKey_self _ src.yield (Value.str content)
  · intro k hk
    rw [getKey_setKey_ne _ src.yield k (Value.str content) hk]
    by_cases hu : (getKey lctx k).isUndef
    · rw [defaults_undef target.objFields lctx k hnd hu, if_pos hu]; rfl
    · rw [defaults_defined target.objFields lctx k (by simpa using hu), if_neg hu]

/-- Witness for C6 at the concrete layout of the concrete catalog, with
a caller context sharing one key with the layout context. -/
theorem wrap_merge_C6_witness :
    ∃ finalCtx : Obj,
      srcW._wrapInLayout "INNER" "@layout"
          (Value.obj [("shared", Value.str "fromCaller"), ("callerOnly", Value.str "C")]) =
        (srcW.engineRender (some layoutVariantW.viewPath) "LAY" (Value.obj finalCtx), []) ∧
      getKey finalCtx srcW.yield = Value.str "INNER" ∧
      ∀ k, k ≠ srcW.yield →
        getKey finalCtx k =
          (if (getKey [("shared", Value.str "fromLayout"), ("only", Value.str "L")] k).isUndef
           then Value.get (Value.obj [("shared", Value.str "fromCaller"),
             ("callerOnly", Value.str "C")]) k
           else getKey [("shared", Value.str "fromLayout"), ("only", Value.str "L")] k) :=
  wrap_merge_C6 srcW "INNER" "@layout"
    (Value.obj [("shared", Value.str "fromCaller"), ("callerOnly", Value.str "C")])
    (.variant layoutVariantW) layoutVariantW
    [("shared", Value.str "fromLayout"), ("only", Value.str "L")] "LAY"
    rfl rfl rfl rfl (by decide)

/-- Guarding a falsy context with an empty object does not change any
property read, every falsy value being a primitive without fields. -/
theorem value_get_guard (context : Value) (k : String) :
    Value.get (if context.truthy then context else Value.obj []) k = Value.get context k := by
  by_cases h : context.truthy
  · rw [if_pos h]
  · rw [if_neg h]
    cases context with
    | obj o => simp [Value.truthy] at h
    | undef => rfl
    | nullV => rfl
    | boolV b => rfl
    | num n => rfl
    | str s => rfl

/-- A successful per-variant outcome joins as its markup, an `undefined`
markup joining as the empty string. -/
theorem joinElem_ok (m : Option String) : joinElem (.ok m) = m.getD "" := by
  cases m <;> rfl

/-- Counterexample for C2 as stated: the claim prescribes the override
stored under the `@handle` key whenever that key is present, but the
source tests the value for truthiness, so a present but falsy override
(here `null` under the `@a` key) is ignored and the variant renders
under its own stored context.  The left side is the collated render the
code produces, the right side the document the claim prescribes, built
from `collatedElemStr`, whose effective-context rule reads the override
whenever the key is present. -/
theorem collated_present_falsy_C2_counterexample :
    (srcW._renderCollatedComponent cardCollW (Value.obj [("@a", Value.nullV)]) [0, 1]).1 ≠
      Except.ok (String.intercalate "\n"
        (cardCollW.variants.map (fun v =>
          collatedElemStr srcW (Value.obj [("@a", Value.nullV)]) v))) := by
  intro h
  rw [show (srcW._renderCollatedComponent cardCollW
        (Value.obj [("@a", Value.nullV)]) [0, 1]).1 =
      Except.ok "va:A:ka:self\nvb:B:kb:self" from rfl,
    show String.intercalate "\n" (cardCollW.variants.map (fun v =>
        collatedElemStr srcW (Value.obj [("@a", Value.nullV)]) v)) =
      "va:A:?:self\nvb:B:kb:self" from rfl] at h
  simp at h

/-- C2 (amended): whatever order the fanned-out per-variant renders of a
collated component complete in, the produced document is the
per-variant markups joined with one newline in declared variant order;
each variant renders under the value stored in the supplied context at
the `@handle` key when that value is truthy, else under its own stored
context — a present but falsy override is ignored — and a configured
collator replaces each raw markup before joining.  The resolution
hypothesis makes every fanned-out task succeed, the case the claim
describes. -/
theorem collated_render_truthy_C2 (src : ComponentSource) (c : Component) (context : Value)
    (sched : List Nat)
    (hres : ∀ v ∈ c.variants, exceptOk (src.resolveCtx (collatedEff context v)) = true) :
    (src._renderCollatedComponent c context sched).1 =
      .ok (String.intercalate "\n"
        (c.variants.map (fun v => collatedElemStrEff src context v))) := by
  have heff : ∀ v ∈ c.variants,
      Value.or (Value.get (if context.truthy then context else Value.obj [])
        ("@" ++ v.handle)) v.context = collatedEff context v := by
    intro v hv
    rw [value_get_guard]
    rfl
  have hok : ∀ v ∈ c.variants, ∃ r, src.resolveCtx (collatedEff context v) = .ok r := by
    intro v hv
    rcases hr : src.resolveCtx (collatedEff context v) with e | r
    · have := hres v hv; rw [hr] at this; simp [exceptOk] at this
    · exact ⟨r, rfl⟩
  have htask : ∀ v ∈ c.variants, ∀ r : Obj,
      src.resolveCtx (collatedEff context v) = .ok r →
      src.collatedTask (if context.truthy then context else Value.obj []) v =
        (let rr := src.renderVariantEntity v (Value.obj r) ⟨false⟩
         match src.collator with
         | some f => (.ok (some (f rr.1 v)), rr.2)
         | none => (.ok rr.1, rr.2)) := by
    intro v hv r hr
    unfold ComponentSource.collatedTask
    rw [heff v hv, hr]
  have htaskok : ∀ v ∈ c.variants,
      ∃ x, (src.collatedTask (if context.truthy then context else Value.obj []) v).1 =
        .ok x := by
    intro v hv
    obtain ⟨r, hr⟩ := hok v hv
    rw [htask v hv r hr]
    cases src.collator with
    | some f => exact ⟨_, rfl⟩
    | none => exact ⟨_, rfl⟩
  have hjoin : ∀ v ∈ c.variants,
      joinElem (src.collatedTask (if context.truthy then context else Value.obj []) v).1 =
        collatedElemStrEff src context v := by
    intro v hv
    obtain ⟨r, hr⟩ := hok v hv
    rw [htask v hv r hr]
    simp only [collatedElemStrEff]
    rw [hr]
    cases src.collator with
    | some f => rfl
    | none => exact joinElem_ok _
  have hmaps : (c.variants.map (fun variant =>
        src.collatedTask (if context.truthy then context else Value.obj []) variant)).map
          (fun t => joinElem t.1) =
      c.variants.map (fun v => collatedElemStrEff src context v) := by
    rw [List.map_map]
    exact List.map_congr_left (fun v hv => hjoin v hv)
  have hnoerr : (sched.filterMap (fun i =>
        (c.variants.map (fun variant =>
          src.collatedTask (if context.truthy then context else Value.obj []) variant)).get? i)).filterMap
      (fun t => match t.1 with | .error e => some e | _ => none) = [] := by
    rw [List.filterMap_eq_nil_iff]
    intro t ht
    obtain ⟨i, _, hget⟩ := List.mem_filterMap.mp ht
    have hmem := List.get?_mem hget
    obtain ⟨v, hv, hveq⟩ := List.mem_map.mp hmem
    obtain ⟨x, hx⟩ := htaskok v hv
    rw [← hveq] at *
    rw [hx]
  unfold ComponentSource._renderCollatedComponent
  simp only [hnoerr, hmaps]

/-- Witness for C2: a concrete collated component with two variants, a
truthy per-variant override for the first, and the completion order
reversed relative to the declared order. -/
theorem collated_render_truthy_C2_witness :
    (srcW._renderCollatedComponent cardCollW
        (Value.obj [("@a", Value.obj [("k", Value.str "OV")])]) [1, 0]).1 =
      .ok (String.intercalate "\n"
        (cardCollW.variants.map (fun v => collatedElemStrEff srcW
          (Value.obj [("@a", Value.obj [("k", Value.str "OV")])]) v))) :=
  collated_render_truthy_C2 srcW cardCollW
    (Value.obj [("@a", Value.obj [("k", Value.str "OV")])]) [1, 0] (by decide)

/-- Splitting always yields at least one segment. -/
theorem splitChar_ne_nil (c : Char) (s : List Char) : splitChar c s ≠ [] := by
  cases s with
  | nil => simp [splitChar]
  | cons d t =>
    simp only [splitChar]
    by_cases hd : d = c
    · simp [hd]
    · simp only [hd, ite_false, if_false]
      cases splitChar c t <;> simp

/-- A separator-free list splits into itself alone. -/
theorem splitChar_no_sep (c : Char) (s : List Char) (h : c ∉ s) : splitChar c s = [s] := by
  induction s with
  | nil => rfl
  | cons d t ih =>
    simp only [List.mem_cons, not_or] at h
    have hd : ¬ (d = c) := fun h2 => h.1 h2.symm
    simp only [splitChar, hd, ite_false, if_false]
    rw [ih h.2]

/-- Splitting at the first separator of a list that opens separator-free
peels off the opening run. -/
theorem splitChar_append_sep (c : Char) (a b : List Char) (h : c ∉ a) :
    splitChar c (a ++ c :: b) = a :: splitChar c b := by
  induction a with
  | nil => simp [splitChar]
  | cons d a2 ih =>
    simp only [List.mem_cons, not_or] at h
    have hd : ¬ (d = c) := fun h2 => h.1 h2.symm
    simp only [List.cons_append, List.append_eq, splitChar, hd, ite_false, if_false]
    rw [ih h.2]

/-- A brace-free pattern holds no expansion group. -/
theorem findBraceGroup_none (s : List Char) (h : braceOpen ∉ s) :
    findBraceGroup s = none := by
  induction s with
  | nil => rfl
  | cons d t ih =>
    simp only [List.mem_cons, not_or] at h
    have hd : ¬ (d = braceOpen) := fun h2 => h.1 h2.symm
    simp only [findBraceGroup, hd, ite_false, if_false]
    rw [ih h.2]

/-- Brace expansion leaves a brace-free pattern alone, whatever the
fuel. -/
theorem expandFuel_no_brace (fuel : Nat) (s : List Char) (h : braceOpen ∉ s) :
    expandFuel fuel s = [s] := by
  cases fuel with
  | zero => rfl
  | succ n => simp [expandFuel, findBraceGroup_none s h]

/-- Brace expansion leaves a brace-free pattern alone. -/
theorem expandBraces_no_brace (p : List Char) (h : braceOpen ∉ p) :
    expandBraces p = [p] :=
  expandFuel_no_brace _ p h

/-- On a brace-free pattern, glob matching is segment matching of the
split pattern against the split path. -/
theorem globMatchL_no_brace (pat path : List Char) (h : braceOpen ∉ pat) :
    globMatchL pat path = matchSegs (splitChar '/' pat) (splitChar '/' path) := by
  simp [globMatchL, expandBraces_no_brace pat h]

/-- Unfolding step of the in-segment matcher on a composite pattern. -/
theorem segMatch_cons (p : Char) (ps s : List Char) :
    segMatch (p :: ps) s =
      if p = '*' then
        segMatch ps s ||
          (match s with
           | [] => false
           | _ :: t => segMatch (p :: ps) t)
      else
        match s with
        | [] => false
        | d :: t => decide (p = d) && segMatch ps t := by
  rw [segMatch.eq_def]

/-- A star-led pattern on the empty segment falls through to its
tail. -/
theorem segMatch_star_nil (ps : List Char) :
    segMatch ('*' :: ps) [] = segMatch ps [] := by
  rw [segMatch_cons]; simp

/-- A star-led pattern either lets the star stand for nothing or
consumes one character into it. -/
theorem segMatch_star_cons (ps : List Char) (d : Char) (t : List Char) :
    segMatch ('*' :: ps) (d :: t) =
      (segMatch ps (d :: t) || segMatch ('*' :: ps) t) := by
  rw [segMatch_cons]; simp

/-- A leading star matches exactly when the rest of the pattern matches
some suffix. -/
theorem segMatch_star_iff (ps s : List Char) :
    segMatch ('*' :: ps) s = true ↔ ∃ t, t <:+ s ∧ segMatch ps t = true := by
  induction s with
  | nil =>
    rw [segMatch_star_nil]
    constructor
    · intro h
      exact ⟨[], List.nil_suffix, h⟩
    · rintro ⟨t, ht, hm⟩
      rw [List.suffix_nil] at ht
      subst ht
      exact hm
  | cons d t ih =>
    rw [segMatch_star_cons, Bool.or_eq_true]
    constructor
    · rintro (h | h)
      · exact ⟨d :: t, List.suffix_refl _, h⟩
      · obtain ⟨u, hu, hm⟩ := ih.mp h
        exact ⟨u, hu.trans (List.suffix_cons d t), hm⟩
    · rintro ⟨u, hu, hm⟩
      rw [List.suffix_cons_iff] at hu
      rcases hu with rfl | hu
      · exact Or.inl hm
      · exact Or.inr (ih.mpr ⟨u, hu, hm⟩)

/-- A star-led pattern matching a suffix matches the whole segment. -/
theorem segMatch_star_of_suffix (ps s t : List Char) (hsuf : t <:+ s)
    (h : segMatch ('*' :: ps) t = true) : segMatch ('*' :: ps) s = true := by
  obtain ⟨u, hu, hm⟩ := (segMatch_star_iff ps t).mp h
  exact (segMatch_star_iff ps s).mpr ⟨u, hu.trans hsuf, hm⟩

/-- Dropping the front of a pattern up to an inner star weakens the
pattern: whatever the full pattern matches, the star-led tail pattern
matches too. -/
theorem segMatch_append_star (xs ys s : List Char)
    (h : segMatch (xs ++ '*' :: ys) s = true) : segMatch ('*' :: ys) s = true := by
  induction xs generalizing s with
  | nil => simpa using h
  | cons x xs2 ih =>
    rw [List.cons_append] at h
    by_cases hx : x = '*'
    · subst hx
      obtain ⟨u, hu, hm⟩ := (segMatch_star_iff (xs2 ++ '*' :: ys) s).mp h
      exact segMatch_star_of_suffix ys s u hu (ih u hm)
    · cases s with
      | nil =>
        rw [segMatch_cons, if_neg hx] at h
        simp at h
      | cons d t =>
        rw [segMatch_cons, if_neg hx] at h
        simp only [Bool.and_eq_true, decide_eq_true_eq] at h
        exact segMatch_star_of_suffix ys (d :: t) t (List.suffix_cons d t) (ih t h.2)

/-- Unfolding step of the segment-list matcher on a composite
pattern. -/
theorem matchSegs_cons (p : List Char) (ps segs : List (List Char)) :
    matchSegs (p :: ps) segs =
      if p = ['*', '*'] then
        matchSegs ps segs ||
          (match segs with
           | [] => false
           | _ :: t => matchSegs (p :: ps) t)
      else
        match segs with
        | [] => false
        | s :: t => segMatch p s && matchSegs ps t := by
  rw [matchSegs.eq_def]

/-- The empty pattern list matches only the empty segment list. -/
theorem matchSegs_nil_nil : matchSegs [] [] = true := by
  rw [matchSegs.eq_def]

/-- The empty pattern list rejects any segment. -/
theorem matchSegs_nil_cons (s : List Char) (t : List (List Char)) :
    matchSegs [] (s :: t) = false := by
  rw [matchSegs.eq_def]

/-- A double star followed by one segment pattern matches exactly the
segment lists whose last segment the pattern matches. -/
theorem matchSegs_dstar_iff (p : List Char) (hp : p ≠ ['*', '*'])
    (segs : List (List Char)) :
    matchSegs [['*', '*'], p] segs = true ↔
      ∃ s, segs.getLast? = some s ∧ segMatch p s = true := by
  induction segs with
  | nil =>
    rw [matchSegs_cons, if_pos rfl]
    constructor
    · intro h
      rw [Bool.or_eq_true] at h
      rcases h with h1 | h1
      · rw [matchSegs_cons, if_neg hp] at h1
        simp at h1
      · simp at h1
    · rintro ⟨x, hx, _⟩
      simp at hx
  | cons s t ih =>
    cases t with
    | nil =>
      simp only [List.getLast?_singleton, Option.some.injEq]
      rw [matchSegs_cons, if_pos rfl]
      constructor
      · intro h
        rw [Bool.or_eq_true] at h
        rcases h with h1 | h1
        · rw [matchSegs_cons, if_neg hp] at h1
          have h2 : (segMatch p s && matchSegs [] []) = true := h1
          rw [matchSegs_nil_nil, Bool.and_true] at h2
          exact ⟨s, rfl, h2⟩
        · have h2 : matchSegs [['*', '*'], p] [] = true := h1
          rw [matchSegs_cons, if_pos rfl] at h2
          rw [Bool.or_eq_true] at h2
          rcases h2 with h3 | h3
          · rw [matchSegs_cons, if_neg hp] at h3
            simp at h3
          · simp at h3
      · rintro ⟨x, hx, hm⟩
        subst hx
        rw [Bool.or_eq_true]
        refine Or.inl ?_
        rw [matchSegs_cons, if_neg hp]
        have : (segMatch p s && matchSegs [] []) = true := by
          rw [matchSegs_nil_nil, Bool.and_true]
          exact hm
        exact this
    | cons u t2 =>
      rw [List.getLast?_cons_cons, ← ih]
      constructor
      · intro h
        rw [matchSegs_cons, if_pos rfl] at h
        rw [Bool.or_eq_true] at h
        rcases h with h1 | h1
        · rw [matchSegs_cons, if_neg hp] at h1
          have h2 : (segMatch p s && matchSegs [] (u :: t2)) = true := h1
          rw [matchSegs_nil_cons, Bool.and_false] at h2
          cases h2
        · exact h1
      · intro h
        rw [matchSegs_cons, if_pos rfl]
        rw [Bool.or_eq_true]
        exact Or.inr h

/-- A variant-view segment pattern is stronger than the plain extension
pattern: under the double star, any path whose last segment carries the
splitter-extension shape also carries the bare extension shape. -/
theorem matchSegs_varview_imp_view (S E : List Char) (pd2 : List (List Char)) (hE : E ≠ []) (hEs : '*' ∉ E)
    (h : matchSegs [['*', '*'], '*' :: (S ++ '*' :: E)] pd2 = true) :
    matchSegs [['*', '*'], '*' :: E] pd2 = true := by
  have hp1 : ('*' :: (S ++ '*' :: E)) ≠ ['*', '*'] := by
    intro hcon
    have hlen := congrArg List.length hcon
    simp [List.length_append] at hlen
    have hE2 : E.length ≠ 0 := fun h0 => hE (List.length_eq_zero.mp h0)
    omega
  have hp2 : ('*' :: E) ≠ ['*', '*'] := by
    intro hcon
    have hE1 : E = ['*'] := by
      injection hcon with h1 h2
    rw [hE1] at hEs
    simp at hEs
  obtain ⟨s, hlast, hseg⟩ := (matchSegs_dstar_iff _ hp1 pd2).mp h
  have hseg2 : segMatch ('*' :: E) s = true := by
    have heq : ('*' :: S) ++ '*' :: E = '*' :: (S ++ '*' :: E) := by simp
    exact segMatch_append_star ('*' :: S) E s (by rw [heq]; exact hseg)
  exact (matchSegs_dstar_iff _ hp2 pd2).mpr ⟨s, hlast, hseg2⟩

/-- C10: for any path, at most one of the view and variant-view
predicates holds, and the asset predicate is false whenever the path is
classified as a view, a variant view, a config file or a readme.  The
hypotheses pin the sane catalog configuration the classifiers
presuppose: the extension is a non-empty literal free of the path
separator, brace and star metacharacters, and the variant splitter is
free of the path separator and brace. -/
theorem classifiers_C10 (src : ComponentSource) (file : FileObj)
    (he1 : '/' ∉ src.ext.data) (he2 : braceOpen ∉ src.ext.data)
    (he3 : '*' ∉ src.ext.data) (he4 : src.ext.data ≠ [])
    (hs1 : '/' ∉ src.splitter.data) (hs2 : braceOpen ∉ src.splitter.data) :
    (¬(src.isView file = true ∧ src.isVarView file = true)) ∧
    ((src.isView file = true ∨ src.isVarView file = true ∨
        src.isConfig file = true ∨ src.isReadme file = true) →
      src.isAsset file = false) := by
  have hPview : ("**/*" ++ src.ext).data =
      '*' :: '*' :: '/' :: '*' :: src.ext.data := by
    rw [String.data_append]
    rfl
  have hPvar : ("**/*" ++ src.splitter ++ "*" ++ src.ext).data =
      '*' :: '*' :: '/' :: '*' :: (src.splitter.data ++ '*' :: src.ext.data) := by
    simp only [String.data_append, List.append_assoc]
    rfl
  have hNvar : ("!**/*" ++ src.splitter ++ "*" ++ src.ext).data =
      '!' :: '*' :: '*' :: '/' :: '*' :: (src.splitter.data ++ '*' :: src.ext.data) := by
    simp only [String.data_append, List.append_assoc]
    rfl
  have hNext : ("!**/*" ++ src.ext).data =
      '!' :: '*' :: '*' :: '/' :: '*' :: src.ext.data := by
    rw [String.data_append]
    rfl
  have hneg_star : ∀ x : List Char, isNegPat ('*' :: x) = false := fun x => rfl
  have hneg_bang : ∀ x : List Char, isNegPat ('!' :: x) = true := fun x => rfl
  have hstrip_bang : ∀ x : List Char, stripNeg ('!' :: x) = x := fun x => rfl
  have hnegA : isNegPat ("**/*.*".data) = false := rfl
  have hnegC : isNegPat ("**/*.config.\x7bjs,json,yaml,yml\x7d".data) = false := rfl
  have hnegR : isNegPat ("**/readme.md".data) = false := rfl
  have hnegCneg : isNegPat ("!**/*.config.\x7bjs,json,yaml,yml\x7d".data) = true := rfl
  have hnegRneg : isNegPat ("!**/readme.md".data) = true := rfl
  have hstripCneg : stripNeg ("!**/*.config.\x7bjs,json,yaml,yml\x7d".data) =
      "**/*.config.\x7bjs,json,yaml,yml\x7d".data := rfl
  have hstripRneg : stripNeg ("!**/readme.md".data) = "**/readme.md".data := rfl
  have hyView : src.isView file =
      (globMatchL ('*' :: '*' :: '/' :: '*' :: src.ext.data) file.path.toLower.data &&
        !globMatchL ('*' :: '*' :: '/' :: '*' ::
          (src.splitter.data ++ '*' :: src.ext.data)) file.path.toLower.data) := by
    show anymatchL [("**/*" ++ src.ext).data,
        ("!**/*" ++ src.splitter ++ "*" ++ src.ext).data] file.path.toLower.data = _
    rw [hPview, hNvar]
    simp [anymatchL, List.any_cons, List.any_nil, hneg_star, hneg_bang, hstrip_bang]
  have hyVar : src.isVarView file =
      globMatchL ('*' :: '*' :: '/' :: '*' ::
        (src.splitter.data ++ '*' :: src.ext.data)) file.path.toLower.data := by
    show anymatchL [("**/*" ++ src.splitter ++ "*" ++ src.ext).data]
      file.path.toLower.data = _
    rw [hPvar]
    simp [anymatchL, List.any_cons, List.any_nil, hneg_star]
  have hyConfig : src.isConfig file =
      globMatchL ("**/*.config.\x7bjs,json,yaml,yml\x7d".data) file.path.toLower.data := by
    show anymatchL ["**/*.config.\x7bjs,json,yaml,yml\x7d".data] file.path.toLower.data = _
    simp [anymatchL, List.any_cons, List.any_nil, hnegC]
  have hyReadme : src.isReadme file =
      globMatchL ("**/readme.md".data) file.path.toLower.data := by
    show anymatchL ["**/readme.md".data] file.path.toLower.data = _
    simp [anymatchL, List.any_cons, List.any_nil, hnegR]
  have hyAsset : src.isAsset file =
      (globMatchL ("**/*.*".data) file.path.toLower.data &&
        !(globMatchL ('*' :: '*' :: '/' :: '*' :: src.ext.data) file.path.toLower.data ||
          (globMatchL ("**/*.config.\x7bjs,json,yaml,yml\x7d".data) file.path.toLower.data ||
            globMatchL ("**/readme.md".data) file.path.toLower.data))) := by
    show anymatchL ["**/*.*".data, ("!**/*" ++ src.ext).data,
        "!**/*.config.\x7bjs,json,yaml,yml\x7d".data,
        "!**/readme.md".data] file.path.toLower.data = _
    rw [hNext]
    simp [anymatchL, List.any_cons, List.any_nil, hneg_star, hneg_bang, hstrip_bang,
      hnegA, hnegCneg, hnegRneg, hstripCneg, hstripRneg]
  have hbfreeV : braceOpen ∉
      ('*' :: '*' :: '/' :: '*' :: (src.splitter.data ++ '*' :: src.ext.data)) := by
    intro hmem
    simp only [List.mem_cons, List.mem_append] at hmem
    rcases hmem with h | h | h | h | h | h | h
    · exact absurd h (by decide)
    · exact absurd h (by decide)
    · exact absurd h (by decide)
    · exact absurd h (by decide)
    · exact hs2 h
    · exact absurd h (by decide)
    · exact he2 h
  have hbfreeView : braceOpen ∉ ('*' :: '*' :: '/' :: '*' :: src.ext.data) := by
    intro hmem
    simp only [List.mem_cons] at hmem
    rcases hmem with h | h | h | h | h
    · exact absurd h (by decide)
    · exact absurd h (by decide)
    · exact absurd h (by decide)
    · exact absurd h (by decide)
    · exact he2 h
  have hnosepV : '/' ∉ ('*' :: (src.splitter.data ++ '*' :: src.ext.data)) := by
    intro hmem
    simp only [List.mem_cons, List.mem_append] at hmem
    rcases hmem with h | h | h | h
    · exact absurd h (by decide)
    · exact hs1 h
    · exact absurd h (by decide)
    · exact he1 h
  have hnosepView : '/' ∉ ('*' :: src.ext.data) := by
    intro hmem
    simp only [List.mem_cons] at hmem
    rcases hmem with h | h
    · exact absurd h (by decide)
    · exact he1 h
  have hsplitV : splitChar '/'
      ('*' :: '*' :: '/' :: '*' :: (src.splitter.data ++ '*' :: src.ext.data)) =
      [['*', '*'], '*' :: (src.splitter.data ++ '*' :: src.ext.data)] := by
    show splitChar '/' (['*', '*'] ++ '/' ::
      ('*' :: (src.splitter.data ++ '*' :: src.ext.data))) = _
    rw [splitChar_append_sep '/' ['*', '*'] _ (by decide)]
    rw [splitChar_no_sep '/' _ hnosepV]
  have hsplitView : splitChar '/' ('*' :: '*' :: '/' :: '*' :: src.ext.data) =
      [['*', '*'], '*' :: src.ext.data] := by
    show splitChar '/' (['*', '*'] ++ '/' :: ('*' :: src.ext.data)) = _
    rw [splitChar_append_sep '/' ['*', '*'] _ (by decide)]
    rw [splitChar_no_sep '/' _ hnosepView]
  have hvarToView : globMatchL ('*' :: '*' :: '/' :: '*' ::
        (src.splitter.data ++ '*' :: src.ext.data)) file.path.toLower.data = true →
      globMatchL ('*' :: '*' :: '/' :: '*' :: src.ext.data)
        file.path.toLower.data = true := by
    intro hg
    rw [globMatchL_no_brace _ _ hbfreeV, hsplitV] at hg
    rw [globMatchL_no_brace _ _ hbfreeView, hsplitView]
    exact matchSegs_varview_imp_view src.splitter.data src.ext.data _ he4 he3 hg
  constructor
  · rintro ⟨hV, hVV⟩
    rw [hyView] at hV
    rw [hyVar] at hVV
    rw [hVV] at hV
    simp at hV
  · intro hcase
    rw [hyAsset]
    rcases hcase with hV | hVV | hC | hR
    · rw [hyView, Bool.and_eq_true] at hV
      rw [hV.1]
      simp
    · rw [hyVar] at hVV
      rw [hvarToView hVV]
      simp
    · rw [hyConfig] at hC
      rw [hC]
      simp
    · rw [hyReadme] at hR
      rw [hR]
      simp

/-- Witness for C10 at the concrete catalog (extension `.hbs`, splitter
tilde) and a concrete variant-view path. -/
theorem classifiers_C10_witness :
    (¬(srcW.isView ⟨"Button~Large.hbs"⟩ = true ∧
        srcW.isVarView ⟨"Button~Large.hbs"⟩ = true)) ∧
    ((srcW.isView ⟨"Button~Large.hbs"⟩ = true ∨
        srcW.isVarView ⟨"Button~Large.hbs"⟩ = true ∨
        srcW.isConfig ⟨"Button~Large.hbs"⟩ = true ∨
        srcW.isReadme ⟨"Button~Large.hbs"⟩ = true) →
      srcW.isAsset ⟨"Button~Large.hbs"⟩ = false) :=
  classifiers_C10 srcW ⟨"Button~Large.hbs"⟩ (by decide) (by decide) (by decide)
    (by decide) (by decide) (by decide)

end Fractal
